import Mathlib

set_option linter.unusedVariables false

/-!
Shallow embedding of the MaxAPI WebSocket client in `src/max_api_fixed.py`
(class `MaxAPI`).  Pure protocol logic — frame demultiplexing, the
pending-request table, the sequence counter, the blocking and deferred send
paths, heartbeat, reconnect backoff, startup wait and media resolution — is
translated into executable Lean functions; the asynchronous parts are
modelled as explicit atomic steps on a client-state record, with I/O
outcomes (write failure, attempt success) passed in as parameters.
-/

/-- An inbound JSON frame as decoded by `json.loads` in `_process_message`
(line 237).  Only the fields the demultiplexer inspects (`cmd`, `seq`) are
kept structurally; `payload` stands for the remainder of the JSON object so
that distinct frames stay distinguishable. -/
structure Frame where
  cmd : Option Int
  seq : Option Int
  payload : String
deriving DecidableEq

/-- The completion handle stored inside one `pending_responses` entry:
`send_command` (line 385) stores a `threading.Event` together with a
`response` slot, `send_command_async` (line 303) stores a tornado future. -/
inductive CompletionHandle
  | event (isSet : Bool) (response : Option Frame)
  | future (resolved : Option Frame)
deriving DecidableEq

/-- One entry of `self.pending_responses` (both entry shapes carry the
originating opcode). -/
structure PendingEntry where
  opcode : Nat
  handle : CompletionHandle
deriving DecidableEq

/-- The table `self.pending_responses`: a dictionary keyed by sequence id
(line 72), modelled as an association list. -/
abbrev Pending := List (Nat × PendingEntry)

/-- Dictionary lookup `pending_responses.get(seq_id)`. -/
def plookup (p : Pending) (s : Nat) : Option PendingEntry :=
  match p.find? (fun kv => kv.1 == s) with
  | some kv => some kv.2
  | none => none

/-- Dictionary removal `pending_responses.pop(seq_id, None)` (state part). -/
def perase (p : Pending) (s : Nat) : Pending :=
  p.filter (fun kv => !(kv.1 == s))

/-- Dictionary assignment `pending_responses[seq_id] = entry` (also used to
model in-place mutation of the entry object stored under `seq_id`). -/
def pset (p : Pending) (s : Nat) (e : PendingEntry) : Pending :=
  (s, e) :: perase p s

/-- The mutable state of a `MaxAPI` instance that the verified claims
depend on: `is_running` (line 67), `_should_reconnect` (line 68),
`auto_reconnect` (line 60), the sequence counter `seq_counter =
itertools.count()` (line 69, represented by the next value it will yield),
the pending-request table (line 72), and whether an event callback is
registered (`on_event`, line 75 — always set by the constructor). -/
structure ClientState where
  isRunning : Bool
  shouldReconnect : Bool
  autoReconnect : Bool
  seqCounter : Nat
  pending : Pending
  onEvent : Bool
deriving DecidableEq

/-- An outbound wire envelope `{"ver": 11, "cmd": 0, "seq": ..., "opcode":
...}` as built at lines 299, 359-363 and 377 (payload abstracted away). -/
structure OutFrame where
  ver : Nat
  cmd : Nat
  seq : Nat
  opcode : Nat
deriving DecidableEq

/-- Opcode `OPCODE_MAP['HEARTBEAT']` (line 26). -/
def OPCODE_HEARTBEAT : Nat := 1

/-- Opcode `OPCODE_MAP['HANDSHAKE']` (line 27). -/
def OPCODE_HANDSHAKE : Nat := 6

/-- Opcode `OPCODE_MAP['SUBSCRIBE_TO_CHAT']` (line 37). -/
def OPCODE_SUBSCRIBE_TO_CHAT : Nat := 75

/-- The externally visible outcome of `_process_message` on one frame. -/
inductive InboundAction
  | deliveredToEvent (s : Nat)
  | resolvedFuture (s : Nat) (resp : Frame)
  | droppedResponse
  | forwardedEvent (data : Frame)
  | noEventHandler (data : Frame)
  | loggedApiError (data : Frame)
  | loggedUnexpected (data : Frame)
deriving DecidableEq

/-- Conversion of the inbound `seq` field to a key of the pending table:
dictionary keys are the natural numbers yielded by `seq_counter`, so a
missing or negative `seq` can never match an entry
(`pending_responses.get(seq_id)` at line 243 then returns `None`). -/
def seqKey (seq : Option Int) : Option Nat :=
  match seq with
  | some s => if 0 ≤ s then some s.toNat else none
  | none => none

/-- Embedding of `_process_message` (lines 235-266).  `cmd=1`: look the
frame's `seq` up in `pending_responses`; a present event-shaped entry gets
its `response` slot set to the whole frame and its event set (the entry is
left in the table, lines 250-252); a present future-shaped entry is popped
and its future resolved (lines 253-256); an absent entry means the frame is
dropped.  `cmd=0`: the full decoded frame is handed to `on_event`
(lines 257-259).  `cmd=3`: the frame is only logged (lines 260-261).
Anything else is logged as unexpected (lines 262-263). -/
def process_message (st : ClientState) (data : Frame) : ClientState × InboundAction :=
  match data.cmd with
  | some 1 =>
    match seqKey data.seq with
    | none => (st, .droppedResponse)
    | some s =>
      match plookup st.pending s with
      | none => (st, .droppedResponse)
      | some pr =>
        match pr.handle with
        | .event _ _ =>
          ({st with pending := pset st.pending s ⟨pr.opcode, .event true (some data)⟩},
           .deliveredToEvent s)
        | .future _ =>
          ({st with pending := perase st.pending s}, .resolvedFuture s data)
  | some 0 =>
    if st.onEvent then (st, .forwardedEvent data) else (st, .noEventHandler data)
  | some 3 => (st, .loggedApiError data)
  | _ => (st, .loggedUnexpected data)

/-- Folding `_process_message` over a list of inbound frames in arrival
order. -/
def process_all (st : ClientState) : List Frame → ClientState
  | [] => st
  | f :: fs => process_all (process_message st f).1 fs

/-- Result of the registration half of a send: either the
`ConnectionError` raised at lines 295-296 / 373-374 before anything else
happens, or the allocated sequence id together with the envelope scheduled
for writing. -/
inductive RegisterResult
  | notConnectedError
  | registered (s : Nat) (wrote : OutFrame)
deriving DecidableEq

/-- Embedding of the first half of `send_command` (lines 372-387): check
`is_running`, draw the next sequence id, build the envelope, register an
event-shaped `PendingRequest`, and schedule the write. -/
def send_command_register (st : ClientState) (opcode : Nat) :
    ClientState × RegisterResult :=
  if st.isRunning then
    let s := st.seqCounter
    ({st with
        seqCounter := s + 1,
        pending := pset st.pending s ⟨opcode, .event false none⟩},
     .registered s ⟨11, 0, s, opcode⟩)
  else (st, .notConnectedError)

/-- Embedding of the registration part of `send_command_async`
(lines 293-306): check `is_running`, draw the next sequence id, register a
future-shaped `PendingRequest`, and write the envelope. -/
def send_command_async_register (st : ClientState) (opcode : Nat) :
    ClientState × RegisterResult :=
  if st.isRunning then
    let s := st.seqCounter
    ({st with
        seqCounter := s + 1,
        pending := pset st.pending s ⟨opcode, .future none⟩},
     .registered s ⟨11, 0, s, opcode⟩)
  else (st, .notConnectedError)

/-- Outcome of the waiting half of a blocking or deferred send:
`timedOut` is the `TimeoutError` raised at lines 395 / 315, `responseLost`
the `RuntimeError` at line 397, `completed` the normal return. -/
inductive BlockingResult
  | timedOut (opcode s : Nat)
  | responseLost (s : Nat)
  | completed (resp : Option Frame)
deriving DecidableEq

/-- The value `pending_request.get("response")` returned at line 399: the
stored response of an event-shaped entry (future-shaped entries carry no
`response` key, so `.get` yields `None`). -/
def entry_response (pr : PendingEntry) : Option Frame :=
  match pr.handle with
  | .event _ r => r
  | .future _ => none

/-- The value `event.wait(timeout)` observes at line 389: whether the event
of the entry registered under `s` has been set by `_process_message`. -/
def event_is_set (st : ClientState) (s : Nat) : Bool :=
  match plookup st.pending s with
  | some ⟨_, .event b _⟩ => b
  | _ => false

/-- Embedding of the second half of `send_command` (lines 389-399), with
the result of `event.wait(timeout)` passed in as `isSet`: the entry is
popped unconditionally; if the wait expired a `TimeoutError` is raised,
if the popped entry is gone a `RuntimeError`, otherwise the stored
response is returned. -/
def send_command_finish (st : ClientState) (opcode s : Nat) (isSet : Bool) :
    ClientState × BlockingResult :=
  let pr := plookup st.pending s
  let st1 := {st with pending := perase st.pending s}
  if isSet then
    match pr with
    | none => (st1, .responseLost s)
    | some e => (st1, .completed (entry_response e))
  else (st1, .timedOut opcode s)

/-- Embedding of the `tornado.gen.TimeoutError` handler of
`send_command_async` (lines 312-315): pop the entry and raise
`TimeoutError`. -/
def send_command_async_timeout (st : ClientState) (opcode s : Nat) :
    ClientState × BlockingResult :=
  ({st with pending := perase st.pending s}, .timedOut opcode s)

/-- The default of the `timeout` parameter of `send_command` and
`send_command_async` (lines 294, 372). -/
def send_command_default_timeout : Nat := 10

/-- Externally visible side effects of the heartbeat and of the listener
loop's failure handling.  `surfacedError` (an exception propagated to a
caller) is included so that its absence is expressible: neither code path
ever produces it. -/
inductive Effect
  | scheduledWrite (w : OutFrame)
  | markedNotReady
  | startedReconnect
  | surfacedError (msg : String)
deriving DecidableEq

/-- The period of the heartbeat `PeriodicCallback` in milliseconds
(line 140). -/
def heartbeat_interval_ms : Nat := 3000

/-- Embedding of `_send_heartbeat` (lines 354-370): a no-op unless
`is_running`; otherwise it draws the next sequence id and schedules a
fire-and-forget write of the keepalive envelope (no pending entry is
created); on a write failure it logs and sets `is_running = False` — it
never calls `_reconnect_async`. -/
def send_heartbeat (st : ClientState) (writeFails : Bool) : ClientState × List Effect :=
  if st.isRunning then
    let s := st.seqCounter
    let st1 := {st with seqCounter := s + 1}
    if writeFails then
      ({st1 with isRunning := false}, [.markedNotReady])
    else
      (st1, [.scheduledWrite ⟨11, 0, s, OPCODE_HEARTBEAT⟩])
  else (st, [])

/-- The ways the listener loop observes a dead connection
(lines 154, 160, 164). -/
inductive ListenerFailure
  | serverClosedSocket
  | webSocketClosedError
  | otherIOError (msg : String)
deriving DecidableEq

/-- Embedding of the failure handling of `_listener_loop_async`
(lines 149-167): every failure is caught; `_reconnect_async` is started
if and only if both `_should_reconnect` and `auto_reconnect` hold,
otherwise the loop ends silently.  No exception ever escapes to a
caller. -/
def listener_on_failure (st : ClientState) (e : ListenerFailure) : List Effect :=
  if st.shouldReconnect && st.autoReconnect then [.startedReconnect] else []

/-- The initial `reconnect_delay` of `_reconnect_async` (line 182). -/
def reconnect_initial_delay : Nat := 2

/-- The `max_delay` cap of `_reconnect_async` (line 183). -/
def reconnect_max_delay : Nat := 60

/-- The backoff update after a failed attempt (line 233):
`reconnect_delay = min(reconnect_delay * 2, max_delay)`. -/
def next_reconnect_delay (d : Nat) : Nat := min (d * 2) reconnect_max_delay

/-- The delay slept before the `(k+1)`-th attempt of one reconnect run
(0-indexed), obtained by iterating the backoff update from the initial
2 seconds. -/
def reconnect_delay_seq : Nat → Nat
  | 0 => reconnect_initial_delay
  | k + 1 => next_reconnect_delay (reconnect_delay_seq k)

/-- One reconnect run of `_reconnect_async` (lines 185-233) given the
attempt outcomes (`true` = `websocket_connect` and the subsequent setup
succeeded): the loop sleeps the current delay, attempts, breaks on success
(after resetting the local delay to 2 at line 227), doubles the delay with
the 60-second cap on failure, and repeats.  Returns the list of delays
slept. -/
def reconnect_loop_go (d : Nat) : List Bool → List Nat
  | [] => []
  | success :: rest =>
    d :: (if success then [] else reconnect_loop_go (next_reconnect_delay d) rest)

/-- Delays slept by one invocation of `_reconnect_async`: the backoff loop
runs only while `_should_reconnect and auto_reconnect` (line 185), and each
invocation starts from the local `reconnect_delay = 2` (line 182). -/
def reconnect_loop_delays (shouldRe autoRe : Bool) (outcomes : List Bool) : List Nat :=
  if shouldRe && autoRe then reconnect_loop_go reconnect_initial_delay outcomes else []

/-- State changes of the entry into `_reconnect_async` (lines 172-180):
`is_running = False`, heartbeat stopped, stale socket closed.  The
sequence counter and the pending table are untouched. -/
def reconnect_enter (st : ClientState) : ClientState :=
  {st with isRunning := false}

/-- State changes of a successful reconnect attempt (line 201):
`is_running = True`.  The sequence counter is untouched (the handshake,
re-authentication and resubscription messages go through
`send_command_async` and are modelled as separate steps). -/
def reconnect_success (st : ClientState) : ClientState :=
  {st with isRunning := true}

/-- State changes of `close` (lines 268-283): `_should_reconnect = False`
then `is_running = False`. -/
def close_client (st : ClientState) : ClientState :=
  {st with shouldReconnect := false, isRunning := false}

/-- The bound of `ready_event.wait(timeout=20)` in the constructor
(line 87). -/
def init_ready_timeout : Nat := 20

/-- Outcome of the constructor's wait (lines 87-90). -/
inductive InitOutcome
  | ready
  | connectTimeoutError
deriving DecidableEq

/-- Embedding of lines 87-90: if the ready event was not set within the
bound, `close()` runs and a `TimeoutError` is raised to the constructing
caller; otherwise construction succeeds. -/
def init_wait_result (readyWithinBound : Bool) : InitOutcome :=
  if readyWithinBound then .ready else .connectTimeoutError

/-- What one iteration of the `_connect_and_run` loop does with the
outcome of its connection attempt (lines 115-147). -/
inductive ConnectIterStep
  | readyAndStop
  | logAndRetryAfter (secs : Nat)
  | raisedToConstructor (msg : String)
deriving DecidableEq

/-- Embedding of one iteration of `_connect_and_run` (lines 115-147): a
successful attempt sets the ready event and leaves the loop; any exception
is caught, logged, and retried after a 5-second sleep.  No exception is
ever re-raised towards the constructing caller. -/
def connect_and_run_iter (attempt : Except String Unit) : ConnectIterStep :=
  match attempt with
  | .ok _ => .readyAndStop
  | .error _ => .logAndRetryAfter 5

/-- Python string truthiness for an optional string value: `None` and the
empty string are falsy (used by `or` at line 473, `if not url` at
lines 474/496, and `or "downloaded_file"` at line 502). -/
def str_truthy (o : Option String) : Option String :=
  match o with
  | some s => if s.isEmpty then none else some s
  | none => none

/-- Python `a or b` on two optional strings: the first truthy value. -/
def py_or_str (a b : Option String) : Option String :=
  match str_truthy a with
  | some s => some s
  | none => str_truthy b

/-- Boolean substring containment on character lists, embedding the Python
`in` operator on strings. -/
def chars_contain (needle : List Char) : List Char → Bool
  | [] => needle == []
  | c :: rest => needle.isPrefixOf (c :: rest) || chars_contain needle rest

/-- The decoded `payload` of the opcode-83 response used by `get_video`
(lines 471-473). -/
structure VideoDescriptor where
  mp4_1080 : Option String
  mp4_720 : Option String
deriving DecidableEq

/-- The decoded `payload` of the opcode-88 response used by `get_file`
(lines 493-495). -/
structure FileDescriptor where
  url : Option String
deriving DecidableEq

/-- The relevant parts of the secondary plain HTTP response obtained with
`requests.get`: whether `raise_for_status()` raises, the `content-type`
header, the body bytes (abstracted to a string), and the `X-File-Name`
header. -/
structure HttpResponse where
  statusError : Bool
  contentType : Option String
  body : String
  fileNameHeader : Option String
deriving DecidableEq

/-- Python exceptions the media helpers can raise. -/
inductive PyError
  | httpStatusError
  | typeError
deriving DecidableEq

/-- Embedding of the fetch half of `get_video` (lines 473-490), given the
decoded protocol payload and the HTTP response: pick
`MP4_1080 or MP4_720`; with no truthy URL return `None`;
`raise_for_status()`; evaluate `'video' not in content_type` (a missing
header makes this a `TypeError`, since `in` is applied to `None`); a
non-video content type yields `None`, otherwise the body bytes are
returned. -/
def get_video_fetch (info : VideoDescriptor) (resp : HttpResponse) :
    Except PyError (Option String) :=
  match py_or_str info.mp4_1080 info.mp4_720 with
  | none => .ok none
  | some _ =>
    if resp.statusError then .error .httpStatusError
    else
      match resp.contentType with
      | none => .error .typeError
      | some ct =>
        if chars_contain "video".toList ct.toList then .ok (some resp.body)
        else .ok none

/-- Embedding of the fetch half of `get_file` (lines 495-504), given the
decoded protocol payload and the HTTP response: with no truthy `url`
return `None`; `raise_for_status()`; otherwise return the body bytes
together with `X-File-Name or "downloaded_file"`.  The content type of
the response is never consulted. -/
def get_file_fetch (info : FileDescriptor) (resp : HttpResponse) :
    Except PyError (Option (String × String)) :=
  match str_truthy info.url with
  | none => .ok none
  | some _ =>
    if resp.statusError then .error .httpStatusError
    else
      match str_truthy resp.fileNameHeader with
      | some n => .ok (some (resp.body, n))
      | none => .ok (some (resp.body, "downloaded_file"))

/-- Formalisation of the validation clause of the specification for the
file fetch, stated from the spec's words: the HTTP response's content
type is validated before the bytes are treated as the requested media
kind, and a failed validation yields no media — so an HTTP response
carrying no content type at all (nothing can validate) must not yield the
media. -/
def file_fetch_validates_content_type : Prop :=
  ∀ (info : FileDescriptor) (resp : HttpResponse),
    resp.contentType = none → resp.statusError = false →
    get_file_fetch info resp = .ok none

/-- The atomic steps of a client lifetime that touch the sequence counter
or the pending table, used to state lifetime-wide invariants. -/
inductive ClientOp
  | opSendBlocking (opcode : Nat)
  | opSendAsync (opcode : Nat)
  | opHeartbeat (writeFails : Bool)
  | opInbound (f : Frame)
  | opBlockingFinish (opcode s : Nat) (isSet : Bool)
  | opAsyncTimeout (opcode s : Nat)
  | opReconnectEnter
  | opReconnectSuccess
  | opClose
deriving DecidableEq

/-- Result of one atomic step: the successor state, the sequence id the
step consumed from `seq_counter` (if any), and the sequence id under which
the step registered a new `PendingRequest` (if any). -/
structure StepOut where
  state : ClientState
  issuedSeq : Option Nat
  registeredSeq : Option Nat
deriving DecidableEq

/-- One atomic step of the client, assembled from the per-function
embeddings above. -/
def client_step (st : ClientState) : ClientOp → StepOut
  | .opSendBlocking o =>
    match send_command_register st o with
    | (st1, .registered s _) => ⟨st1, some s, some s⟩
    | (st1, .notConnectedError) => ⟨st1, none, none⟩
  | .opSendAsync o =>
    match send_command_async_register st o with
    | (st1, .registered s _) => ⟨st1, some s, some s⟩
    | (st1, .notConnectedError) => ⟨st1, none, none⟩
  | .opHeartbeat wf =>
    ⟨(send_heartbeat st wf).1, if st.isRunning then some st.seqCounter else none, none⟩
  | .opInbound f => ⟨(process_message st f).1, none, none⟩
  | .opBlockingFinish o s b => ⟨(send_command_finish st o s b).1, none, none⟩
  | .opAsyncTimeout o s => ⟨(send_command_async_timeout st o s).1, none, none⟩
  | .opReconnectEnter => ⟨reconnect_enter st, none, none⟩
  | .opReconnectSuccess => ⟨reconnect_success st, none, none⟩
  | .opClose => ⟨close_client st, none, none⟩

/-- Running a whole trace of atomic steps, collecting the consumed
sequence ids and the sequence ids of all registered `PendingRequest`
entries, in order. -/
def run_trace (st : ClientState) : List ClientOp → ClientState × List Nat × List Nat
  | [] => (st, [], [])
  | op :: ops =>
    let o1 := client_step st op
    let rest := run_trace o1.state ops
    (rest.1, o1.issuedSeq.toList ++ rest.2.1, o1.registeredSeq.toList ++ rest.2.2)

theorem plookup_eq_find (p : Pending) (s : Nat) :
    plookup p s = (p.find? (fun kv => kv.1 == s)).map (fun kv => kv.2) := by
  unfold plookup
  cases p.find? (fun kv => kv.1 == s) <;> rfl

theorem find_perase_self (p : Pending) (s : Nat) :
    (perase p s).find? (fun kv => kv.1 == s) = none := by
  unfold perase
  rw [List.find?_filter]
  rw [List.find?_eq_none]
  intro x hx
  by_cases hxs : x.1 = s <;> simp [hxs]

theorem find_perase_ne (p : Pending) (s t : Nat) (h : t ≠ s) :
    (perase p s).find? (fun kv => kv.1 == t) = p.find? (fun kv => kv.1 == t) := by
  unfold perase
  rw [List.find?_filter]
  congr 1
  funext a
  by_cases hat : a.1 = t
  · have has : a.1 ≠ s := fun he => h (hat ▸ he)
    simp [hat, has, h]
  · simp [hat]

theorem plookup_pset_self (p : Pending) (s : Nat) (e : PendingEntry) :
    plookup (pset p s e) s = some e := by
  simp [plookup, pset, List.find?_cons]

theorem plookup_pset_ne (p : Pending) (s t : Nat) (e : PendingEntry) (h : t ≠ s) :
    plookup (pset p s e) t = plookup p t := by
  rw [plookup_eq_find, plookup_eq_find]
  unfold pset
  rw [List.find?_cons]
  have : ((s, e).1 == t) = false := by simp [Ne.symm h]
  rw [this]
  rw [find_perase_ne p s t h]

theorem plookup_perase_self (p : Pending) (s : Nat) :
    plookup (perase p s) s = none := by
  rw [plookup_eq_find, find_perase_self]
  rfl

theorem plookup_perase_ne (p : Pending) (s t : Nat) (h : t ≠ s) :
    plookup (perase p s) t = plookup p t := by
  rw [plookup_eq_find, plookup_eq_find, find_perase_ne p s t h]

theorem process_message_fields (st : ClientState) (f : Frame) :
    ((process_message st f).1).isRunning = st.isRunning ∧
    ((process_message st f).1).shouldReconnect = st.shouldReconnect ∧
    ((process_message st f).1).autoReconnect = st.autoReconnect ∧
    ((process_message st f).1).seqCounter = st.seqCounter ∧
    ((process_message st f).1).onEvent = st.onEvent := by
  unfold process_message
  repeat' split
  all_goals simp

theorem process_message_pending_other (st : ClientState) (f : Frame) (s : Nat)
    (h : ¬ (f.cmd = some 1 ∧ seqKey f.seq = some s)) :
    plookup ((process_message st f).1).pending s = plookup st.pending s := by
  unfold process_message
  split
  · rename_i hcmd
    split
    · rfl
    · rename_i t hseq
      have hts : s ≠ t := by
        intro he
        exact h ⟨hcmd, he ▸ hseq⟩
      split
      · rfl
      · rename_i pr hpr
        split
        · exact plookup_pset_ne st.pending t s _ hts
        · exact plookup_perase_ne st.pending t s hts
  · split <;> rfl
  · rfl
  · rfl

theorem process_message_delivers_event (st : ClientState) (f : Frame) (s : Nat)
    (o : Nat) (b : Bool) (r : Option Frame)
    (hcmd : f.cmd = some 1) (hseq : seqKey f.seq = some s)
    (hpr : plookup st.pending s = some ⟨o, .event b r⟩) :
    process_message st f =
      ({st with pending := pset st.pending s ⟨o, .event true (some f)⟩},
       .deliveredToEvent s) := by
  simp [process_message, hcmd, hseq, hpr]

theorem process_message_resolves_future (st : ClientState) (f : Frame) (s : Nat)
    (o : Nat) (r : Option Frame)
    (hcmd : f.cmd = some 1) (hseq : seqKey f.seq = some s)
    (hpr : plookup st.pending s = some ⟨o, .future r⟩) :
    process_message st f = ({st with pending := perase st.pending s}, .resolvedFuture s f) := by
  simp [process_message, hcmd, hseq, hpr]

theorem process_message_drops (st : ClientState) (f : Frame) (s : Nat)
    (hcmd : f.cmd = some 1) (hseq : seqKey f.seq = some s)
    (hpr : plookup st.pending s = none) :
    process_message st f = (st, .droppedResponse) := by
  simp [process_message, hcmd, hseq, hpr]

theorem process_message_drops_noseq (st : ClientState) (f : Frame)
    (hcmd : f.cmd = some 1) (hseq : seqKey f.seq = none) :
    process_message st f = (st, .droppedResponse) := by
  simp [process_message, hcmd, hseq]

theorem process_message_event_frame (st : ClientState) (f : Frame)
    (hcmd : f.cmd = some 0) :
    process_message st f =
      (st, if st.onEvent then .forwardedEvent f else .noEventHandler f) := by
  by_cases he : st.onEvent <;> simp [process_message, hcmd, he]

theorem process_message_error_frame (st : ClientState) (f : Frame)
    (hcmd : f.cmd = some 3) :
    process_message st f = (st, .loggedApiError f) := by
  simp [process_message, hcmd]

theorem process_all_pending_other (st : ClientState) (fs : List Frame) (s : Nat)
    (h : ∀ f ∈ fs, ¬ (f.cmd = some 1 ∧ seqKey f.seq = some s)) :
    plookup (process_all st fs).pending s = plookup st.pending s := by
  induction fs generalizing st with
  | nil => rfl
  | cons f fs ih =>
    have h1 := process_message_pending_other st f s (h f (by simp))
    have h2 := ih (process_message st f).1 (fun g hg => h g (by simp [hg]))
    calc plookup (process_all st (f :: fs)).pending s
        = plookup (process_all (process_message st f).1 fs).pending s := rfl
      _ = plookup ((process_message st f).1).pending s := h2
      _ = plookup st.pending s := h1

theorem send_command_finish_state (st : ClientState) (o s : Nat) (b : Bool) :
    (send_command_finish st o s b).1 = {st with pending := perase st.pending s} := by
  unfold send_command_finish
  by_cases hb : b
  · cases hp : plookup st.pending s <;> simp [hb, hp]
  · simp [hb]

theorem client_step_issued (st : ClientState) (op : ClientOp) :
    ((client_step st op).issuedSeq = none ∧
     (client_step st op).state.seqCounter = st.seqCounter) ∨
    ((client_step st op).issuedSeq = some st.seqCounter ∧
     (client_step st op).state.seqCounter = st.seqCounter + 1) := by
  cases op with
  | opSendBlocking o =>
    by_cases hr : st.isRunning
    · right; simp [client_step, send_command_register, hr]
    · left; simp [client_step, send_command_register, hr]
  | opSendAsync o =>
    by_cases hr : st.isRunning
    · right; simp [client_step, send_command_async_register, hr]
    · left; simp [client_step, send_command_async_register, hr]
  | opHeartbeat wf =>
    by_cases hr : st.isRunning
    · right
      by_cases hw : wf <;> simp [client_step, send_heartbeat, hr, hw]
    · left; simp [client_step, send_heartbeat, hr]
  | opInbound f =>
    left
    exact ⟨rfl, (process_message_fields st f).2.2.2.1⟩
  | opBlockingFinish o s b =>
    left
    refine ⟨rfl, ?_⟩
    have h1 : (client_step st (ClientOp.opBlockingFinish o s b)).state =
        (send_command_finish st o s b).1 := rfl
    rw [h1, send_command_finish_state]
  | opAsyncTimeout o s => left; exact ⟨rfl, rfl⟩
  | opReconnectEnter => left; exact ⟨rfl, rfl⟩
  | opReconnectSuccess => left; exact ⟨rfl, rfl⟩
  | opClose => left; exact ⟨rfl, rfl⟩

theorem client_step_registered (st : ClientState) (op : ClientOp) (r : Nat)
    (h : (client_step st op).registeredSeq = some r) :
    (client_step st op).issuedSeq = some r := by
  cases op with
  | opSendBlocking o =>
    by_cases hr : st.isRunning
    · simp [client_step, send_command_register, hr] at h ⊢
      exact h
    · simp [client_step, send_command_register, hr] at h
  | opSendAsync o =>
    by_cases hr : st.isRunning
    · simp [client_step, send_command_async_register, hr] at h ⊢
      exact h
    · simp [client_step, send_command_async_register, hr] at h
  | opHeartbeat wf => simp [client_step] at h
  | opInbound f => simp [client_step] at h
  | opBlockingFinish o s b => simp [client_step] at h
  | opAsyncTimeout o s => simp [client_step] at h
  | opReconnectEnter => simp [client_step] at h
  | opReconnectSuccess => simp [client_step] at h
  | opClose => simp [client_step] at h

theorem run_trace_counter_mono (st : ClientState) (ops : List ClientOp) :
    st.seqCounter ≤ (run_trace st ops).1.seqCounter := by
  induction ops generalizing st with
  | nil => exact Nat.le_refl _
  | cons op ops ih =>
    have h := client_step_issued st op
    have h2 := ih (client_step st op).state
    have : (run_trace st (op :: ops)).1 = (run_trace (client_step st op).state ops).1 := rfl
    rw [this]
    rcases h with ⟨_, hc⟩ | ⟨_, hc⟩ <;> omega

theorem run_trace_issued_range (st : ClientState) (ops : List ClientOp) :
    (run_trace st ops).2.1 =
      List.range' st.seqCounter ((run_trace st ops).1.seqCounter - st.seqCounter) := by
  induction ops generalizing st with
  | nil => simp [run_trace]
  | cons op ops ih =>
    have h := client_step_issued st op
    have mono := run_trace_counter_mono (client_step st op).state ops
    have hfin : (run_trace st (op :: ops)).1 = (run_trace (client_step st op).state ops).1 := rfl
    have hiss : (run_trace st (op :: ops)).2.1 =
        (client_step st op).issuedSeq.toList ++ (run_trace (client_step st op).state ops).2.1 := rfl
    rcases h with ⟨hi, hc⟩ | ⟨hi, hc⟩
    · rw [hfin, hiss, hi, ih]
      rw [hc]
      rfl
    · rw [hfin, hiss, hi, ih]
      rw [hc] at mono ⊢
      have hd : (run_trace (client_step st op).state ops).1.seqCounter - st.seqCounter =
          ((run_trace (client_step st op).state ops).1.seqCounter - (st.seqCounter + 1)) + 1 := by
        omega
      rw [hd, List.range'_succ]
      rfl

theorem run_trace_registered_sublist (st : ClientState) (ops : List ClientOp) :
    (run_trace st ops).2.2.Sublist (run_trace st ops).2.1 := by
  induction ops generalizing st with
  | nil => exact List.Sublist.refl _
  | cons op ops ih =>
    have hiss : (run_trace st (op :: ops)).2.1 =
        (client_step st op).issuedSeq.toList ++ (run_trace (client_step st op).state ops).2.1 := rfl
    have hreg : (run_trace st (op :: ops)).2.2 =
        (client_step st op).registeredSeq.toList ++ (run_trace (client_step st op).state ops).2.2 := rfl
    rw [hiss, hreg]
    apply List.Sublist.append ?_ (ih _)
    cases hr : (client_step st op).registeredSeq with
    | none => simp
    | some r =>
      rw [client_step_registered st op r hr]

theorem run_trace_issued_nodup (st : ClientState) (ops : List ClientOp) :
    (run_trace st ops).2.1.Nodup := by
  rw [run_trace_issued_range]
  exact List.nodup_range' _ _

theorem run_trace_registered_nodup (st : ClientState) (ops : List ClientOp) :
    (run_trace st ops).2.2.Nodup :=
  List.Nodup.sublist (run_trace_registered_sublist st ops) (run_trace_issued_nodup st ops)

theorem reconnect_delay_seq_closed (i : Nat) :
    reconnect_delay_seq i = min (2 ^ (i + 1)) 60 := by
  induction i with
  | zero => rfl
  | succ n ih =>
    have h2 : 2 ^ (n + 1) ≤ 2 ^ (n + 2) := Nat.pow_le_pow_right (by norm_num) (by omega)
    unfold reconnect_delay_seq next_reconnect_delay reconnect_max_delay
    rw [ih]
    rcases le_or_lt (2 ^ (n + 1)) 60 with h | h
    · rw [Nat.min_eq_left h]
      have hp : 2 ^ (n + 1) * 2 = 2 ^ (n + 2) := by ring
      rw [hp]
    · have h60 : min (2 ^ (n + 1)) 60 = 60 := Nat.min_eq_right (Nat.le_of_lt h)
      rw [h60]
      omega

theorem reconnect_go_get (i : Nat) : ∀ (k j : Nat), i ≤ k →
    (reconnect_loop_go (reconnect_delay_seq j) (List.replicate k false ++ [true]))[i]? =
      some (reconnect_delay_seq (j + i)) := by
  induction i with
  | zero =>
    intro k j h
    cases k with
    | zero => simp [reconnect_loop_go]
    | succ n =>
      rw [List.replicate_succ]
      simp [reconnect_loop_go]
  | succ m ih =>
    intro k j h
    cases k with
    | zero => omega
    | succ n =>
      rw [List.replicate_succ]
      simp only [List.cons_append, reconnect_loop_go, if_neg, Bool.false_eq_true,
        not_false_iff, List.getElem?_cons_succ, List.append_eq]
      have hnext : next_reconnect_delay (reconnect_delay_seq j) = reconnect_delay_seq (j + 1) := rfl
      rw [hnext, ih n (j + 1) (by omega)]
      have harg : j + 1 + m = j + (m + 1) := by omega
      rw [harg]

theorem reconnect_loop_delays_get (k i : Nat) (h : i ≤ k) :
    (reconnect_loop_delays true true (List.replicate k false ++ [true]))[i]? =
      some (min (2 ^ (i + 1)) 60) := by
  have h0 : reconnect_loop_delays true true (List.replicate k false ++ [true]) =
      reconnect_loop_go (reconnect_delay_seq 0) (List.replicate k false ++ [true]) := rfl
  rw [h0, reconnect_go_get i k 0 h, Nat.zero_add, reconnect_delay_seq_closed]

theorem reconnect_loop_delays_head (outcomes : List Bool) (h : outcomes ≠ []) :
    (reconnect_loop_delays true true outcomes).head? = some 2 := by
  cases outcomes with
  | nil => exact absurd rfl h
  | cons o rest =>
    cases o <;> simp [reconnect_loop_delays, reconnect_loop_go, reconnect_initial_delay]

theorem reconnect_loop_go_length_fail (k : Nat) : ∀ (d : Nat),
    (reconnect_loop_go d (List.replicate k false)).length = k := by
  induction k with
  | zero => intro d; rfl
  | succ n ih =>
    intro d
    rw [List.replicate_succ]
    simp [reconnect_loop_go, ih]

/-- C1: for every inbound JSON frame, demultiplexing switches on the cmd
field.  With cmd=1 the frame's seq is looked up in the pending-request
table: a present entry receives the frame through its completion handle
(event-shaped entries get their response slot filled and their event set,
future-shaped entries are resolved), an absent entry (including a missing
or negative seq) means the frame is dropped.  With cmd=0 the full frame is
forwarded to the event handler, the state (hence the pending table) is
unchanged, and the resulting action is independent of the pending table.
With cmd=3 the frame is only logged and the state is unchanged, again
independently of the pending table. -/
theorem C1_inbound_demultiplex (st : ClientState) (f : Frame) :
    (f.cmd = some 1 →
      (∀ s, seqKey f.seq = some s →
        (plookup st.pending s = none → process_message st f = (st, .droppedResponse)) ∧
        (∀ o b r, plookup st.pending s = some ⟨o, .event b r⟩ →
          process_message st f =
            ({st with pending := pset st.pending s ⟨o, .event true (some f)⟩},
             .deliveredToEvent s)) ∧
        (∀ o r, plookup st.pending s = some ⟨o, .future r⟩ →
          process_message st f =
            ({st with pending := perase st.pending s}, .resolvedFuture s f))) ∧
      (seqKey f.seq = none → process_message st f = (st, .droppedResponse))) ∧
    (f.cmd = some 0 →
      (process_message st f).1 = st ∧
      (st.onEvent = true → (process_message st f).2 = .forwardedEvent f) ∧
      (∀ p, (process_message {st with pending := p} f).2 = (process_message st f).2)) ∧
    (f.cmd = some 3 →
      process_message st f = (st, .loggedApiError f) ∧
      (∀ p, (process_message {st with pending := p} f).2 = (process_message st f).2)) := by
  refine ⟨fun hcmd => ⟨fun s hseq => ⟨?_, ?_, ?_⟩, ?_⟩, fun hcmd => ⟨?_, ?_, ?_⟩,
    fun hcmd => ⟨?_, ?_⟩⟩
  · exact fun hpr => process_message_drops st f s hcmd hseq hpr
  · exact fun o b r hpr => process_message_delivers_event st f s o b r hcmd hseq hpr
  · exact fun o r hpr => process_message_resolves_future st f s o r hcmd hseq hpr
  · exact fun hseq => process_message_drops_noseq st f hcmd hseq
  · rw [process_message_event_frame st f hcmd]
  · intro he
    rw [process_message_event_frame st f hcmd, he]
    rfl
  · intro p
    rw [process_message_event_frame st f hcmd,
      process_message_event_frame {st with pending := p} f hcmd]
  · exact process_message_error_frame st f hcmd
  · intro p
    rw [process_message_error_frame st f hcmd,
      process_message_error_frame {st with pending := p} f hcmd]

theorem C1_inbound_demultiplex_witness :
    process_message ⟨true, true, true, 0, [], true⟩ ⟨some 3, none, "err"⟩ =
      (⟨true, true, true, 0, [], true⟩,
       InboundAction.loggedApiError ⟨some 3, none, "err"⟩) :=
  ((C1_inbound_demultiplex ⟨true, true, true, 0, [], true⟩ ⟨some 3, none, "err"⟩).2.2 rfl).1

/-- C2: the sequence counter is a single process-lifetime monotonic
integer.  Entering and completing a reconnect leave it untouched (it is
never reset), it is monotone over every trace of client operations, the
sequence ids consumed over a trace are exactly the consecutive range
starting at the initial counter value (every outbound request consumes the
next value), and the sequence ids under which PendingRequest entries are
registered over a whole lifetime — across any number of reconnects —
contain no duplicate. -/
theorem C2_seq_counter_lifetime (st : ClientState) (ops : List ClientOp) :
    (reconnect_enter st).seqCounter = st.seqCounter ∧
    (reconnect_success st).seqCounter = st.seqCounter ∧
    st.seqCounter ≤ (run_trace st ops).1.seqCounter ∧
    (run_trace st ops).2.1 =
      List.range' st.seqCounter ((run_trace st ops).1.seqCounter - st.seqCounter) ∧
    (run_trace st ops).2.2.Nodup :=
  ⟨rfl, rfl, run_trace_counter_mono st ops, run_trace_issued_range st ops,
    run_trace_registered_nodup st ops⟩

theorem C2_seq_counter_lifetime_witness :
    (reconnect_enter ⟨true, true, true, 0, [], true⟩).seqCounter = 0 ∧
    (reconnect_success ⟨true, true, true, 0, [], true⟩).seqCounter = 0 ∧
    0 ≤ (run_trace ⟨true, true, true, 0, [], true⟩
      [.opSendBlocking 64, .opReconnectEnter, .opReconnectSuccess, .opSendAsync 49]).1.seqCounter ∧
    (run_trace ⟨true, true, true, 0, [], true⟩
      [.opSendBlocking 64, .opReconnectEnter, .opReconnectSuccess, .opSendAsync 49]).2.1 =
      List.range' 0 ((run_trace ⟨true, true, true, 0, [], true⟩
        [.opSendBlocking 64, .opReconnectEnter, .opReconnectSuccess,
          .opSendAsync 49]).1.seqCounter - 0) ∧
    (run_trace ⟨true, true, true, 0, [], true⟩
      [.opSendBlocking 64, .opReconnectEnter, .opReconnectSuccess,
        .opSendAsync 49]).2.2.Nodup :=
  C2_seq_counter_lifetime ⟨true, true, true, 0, [], true⟩
    [.opSendBlocking 64, .opReconnectEnter, .opReconnectSuccess, .opSendAsync 49]

/-- C3 counterexample: the claim states that a cmd=1 frame with seq=S
removes the PendingRequest at S and that any later frame carrying the same
S is dropped and never redelivered, for the blocking (event-based) path as
well.  On the code this fails: processing a cmd=1 frame against an
event-shaped entry leaves the entry in the table (it is removed only later
by the waiting caller, line 392), and a second frame with the same seq
processed before that removal is delivered again, overwriting the stored
response. -/
theorem C3_counterexample :
    plookup ((process_message
        ⟨true, true, true, 6, [(5, ⟨64, .event false none⟩)], true⟩
        ⟨some 1, some 5, "first"⟩).1).pending 5 =
      some ⟨64, .event true (some ⟨some 1, some 5, "first"⟩)⟩ ∧
    (process_message
        ((process_message ⟨true, true, true, 6, [(5, ⟨64, .event false none⟩)], true⟩
          ⟨some 1, some 5, "first"⟩).1)
        ⟨some 1, some 5, "second"⟩).2 = .deliveredToEvent 5 ∧
    plookup ((process_message
        ((process_message ⟨true, true, true, 6, [(5, ⟨64, .event false none⟩)], true⟩
          ⟨some 1, some 5, "first"⟩).1)
        ⟨some 1, some 5, "second"⟩).1).pending 5 =
      some ⟨64, .event true (some ⟨some 1, some 5, "second"⟩)⟩ :=
  ⟨rfl, rfl, rfl⟩

/-- C3 (amended): a cmd=1 frame with seq=S resolves only the
PendingRequest registered at S, leaving all other entries unchanged.  On
the deferred (future-based) path the handler removes the entry before
resolving it, so any later frame carrying the same S is dropped as
orphaned.  On the blocking (event-based) path the handler sets the entry's
completion event without removing the entry; the entry is removed by the
waiting caller (on completion or timeout, and in particular after a
timeout removed it), and any frame carrying S processed after that removal
is dropped as orphaned and never redelivered. -/
theorem C3_amended_response_matching (st : ClientState) (f : Frame) (s o : Nat)
    (hcmd : f.cmd = some 1) (hseq : seqKey f.seq = some s) :
    (∀ r, plookup st.pending s = some ⟨o, .future r⟩ →
      process_message st f = ({st with pending := perase st.pending s}, .resolvedFuture s f) ∧
      plookup (perase st.pending s) s = none ∧
      (∀ t, t ≠ s → plookup (perase st.pending s) t = plookup st.pending t) ∧
      process_message {st with pending := perase st.pending s} f =
        ({st with pending := perase st.pending s}, .droppedResponse)) ∧
    (∀ b r, plookup st.pending s = some ⟨o, .event b r⟩ →
      process_message st f =
        ({st with pending := pset st.pending s ⟨o, .event true (some f)⟩},
         .deliveredToEvent s) ∧
      (∀ t, t ≠ s →
        plookup (pset st.pending s ⟨o, .event true (some f)⟩) t = plookup st.pending t)) ∧
    (plookup ((send_command_finish st o s true).1).pending s = none ∧
      process_message (send_command_finish st o s true).1 f =
        ((send_command_finish st o s true).1, .droppedResponse)) := by
  refine ⟨fun r hpr => ⟨?_, ?_, ?_, ?_⟩, fun b r hpr => ⟨?_, ?_⟩, ⟨?_, ?_⟩⟩
  · exact process_message_resolves_future st f s o r hcmd hseq hpr
  · exact plookup_perase_self st.pending s
  · exact fun t ht => plookup_perase_ne st.pending s t ht
  · exact process_message_drops _ f s hcmd hseq (plookup_perase_self st.pending s)
  · exact process_message_delivers_event st f s o b r hcmd hseq hpr
  · exact fun t ht => plookup_pset_ne st.pending s t _ ht
  · rw [send_command_finish_state]
    exact plookup_perase_self st.pending s
  · rw [send_command_finish_state]
    exact process_message_drops _ f s hcmd hseq (plookup_perase_self st.pending s)

theorem C3_amended_response_matching_witness :
    process_message ⟨true, true, true, 3, [(2, ⟨49, .future none⟩)], true⟩
        ⟨some 1, some 2, "resp"⟩ =
      ({(⟨true, true, true, 3, [(2, ⟨49, .future none⟩)], true⟩ : ClientState) with
          pending := perase [(2, ⟨49, .future none⟩)] 2}, .resolvedFuture 2 ⟨some 1, some 2, "resp"⟩) ∧
    plookup (perase [(2, (⟨49, .future none⟩ : PendingEntry))] 2) 2 = none := by
  have h := (C3_amended_response_matching ⟨true, true, true, 3, [(2, ⟨49, .future none⟩)], true⟩
    ⟨some 1, some 2, "resp"⟩ 2 49 rfl rfl).1 none rfl
  exact ⟨h.1, h.2.1⟩

/-- C4: within one run of consecutive reconnect failures the delay slept
before the (i+1)-th attempt is min(2^(i+1), 60) — that is the sequence 2s,
4s, 8s, 16s, 32s, 60s, 60s, …, doubling after each failed attempt and
capped at 60s — and because the delay is re-initialised for every
invocation of the reconnect procedure, the run following any successful
reconnect starts again with a 2-second delay. -/
theorem C4_backoff_sequence (k i : Nat) (h : i ≤ k) (outcomes : List Bool)
    (hne : outcomes ≠ []) :
    (reconnect_loop_delays true true (List.replicate k false ++ [true]))[i]? =
      some (min (2 ^ (i + 1)) 60) ∧
    reconnect_loop_delays true true (List.replicate 6 false ++ [true]) =
      [2, 4, 8, 16, 32, 60, 60] ∧
    (reconnect_loop_delays true true outcomes).head? = some 2 :=
  ⟨reconnect_loop_delays_get k i h, by decide, reconnect_loop_delays_head outcomes hne⟩

theorem C4_backoff_sequence_witness :
    (reconnect_loop_delays true true (List.replicate 5 false ++ [true]))[3]? =
      some (min (2 ^ 4) 60) ∧
    reconnect_loop_delays true true (List.replicate 6 false ++ [true]) =
      [2, 4, 8, 16, 32, 60, 60] ∧
    (reconnect_loop_delays true true [false, true]).head? = some 2 :=
  C4_backoff_sequence 5 3 (by decide) [false, true] (by decide)

/-- Formalisation of the claim for C5, from the spec's words: as long as
the shouldReconnect flag is true, every post-startup I/O failure on the
socket causes the client to re-enter the reconnect loop. -/
def post_startup_failure_always_reconnects : Prop :=
  ∀ (st : ClientState) (e : ListenerFailure),
    st.shouldReconnect = true → Effect.startedReconnect ∈ listener_on_failure st e

/-- C5 counterexample: the listener loop starts a reconnect only when both
the shouldReconnect flag and the auto_reconnect configuration flag hold
(lines 155, 161, 165).  With shouldReconnect still true but auto_reconnect
false, a post-startup I/O failure does not re-enter the reconnect loop,
refuting the claim as stated. -/
theorem C5_counterexample : ¬ post_startup_failure_always_reconnects := by
  intro h
  have hc := h ⟨true, true, false, 0, [], true⟩ .webSocketClosedError rfl
  simp [listener_on_failure] at hc

/-- C5 (amended): any post-startup I/O failure on the socket is never
surfaced to any caller, and as long as both the shouldReconnect flag and
the auto_reconnect configuration flag are true, every such failure causes
the client to re-enter the reconnect loop, which retries indefinitely
(after any number k of consecutive failures the loop has slept k delays
and is attempting again). -/
theorem C5_amended_transient_loss (st : ClientState) (e : ListenerFailure) :
    (st.shouldReconnect = true → st.autoReconnect = true →
      listener_on_failure st e = [Effect.startedReconnect]) ∧
    (∀ m, Effect.surfacedError m ∉ listener_on_failure st e) ∧
    (∀ k, (reconnect_loop_delays true true (List.replicate k false)).length = k) := by
  refine ⟨fun h1 h2 => by simp [listener_on_failure, h1, h2], ?_, ?_⟩
  · intro m hm
    unfold listener_on_failure at hm
    by_cases hc : st.shouldReconnect && st.autoReconnect <;> simp [hc] at hm
  · intro k
    have hd : reconnect_loop_delays true true (List.replicate k false) =
        reconnect_loop_go reconnect_initial_delay (List.replicate k false) := rfl
    rw [hd, reconnect_loop_go_length_fail]

theorem C5_amended_transient_loss_witness :
    listener_on_failure ⟨false, true, true, 0, [], true⟩ .serverClosedSocket =
      [Effect.startedReconnect] :=
  (C5_amended_transient_loss ⟨false, true, true, 0, [], true⟩ .serverClosedSocket).1 rfl rfl

/-- C6: a blocking send while connected registers an event-shaped
PendingRequest under the next sequence id and writes the envelope; the
default per-call timeout is 10 seconds.  If no inbound frame answers that
sequence id, the wait observes an unset event, the call fails with the
timeout error, and the pending table no longer holds an entry for that
sequence id.  If a response frame for that sequence id is processed, the
wait observes a set event, the call returns the response, and the entry is
likewise removed. -/
theorem C6_blocking_timeout_semantics (st : ClientState) (o : Nat) (fs : List Frame)
    (hrun : st.isRunning = true) :
    send_command_default_timeout = 10 ∧
    send_command_register st o =
      ({st with seqCounter := st.seqCounter + 1,
                pending := pset st.pending st.seqCounter ⟨o, .event false none⟩},
       .registered st.seqCounter ⟨11, 0, st.seqCounter, o⟩) ∧
    ((∀ f ∈ fs, ¬ (f.cmd = some 1 ∧ seqKey f.seq = some st.seqCounter)) →
      event_is_set (process_all (send_command_register st o).1 fs) st.seqCounter = false ∧
      (send_command_finish (process_all (send_command_register st o).1 fs) o st.seqCounter
          false).2 = .timedOut o st.seqCounter ∧
      plookup ((send_command_finish (process_all (send_command_register st o).1 fs) o
          st.seqCounter false).1).pending st.seqCounter = none) ∧
    (∀ f, f.cmd = some 1 → seqKey f.seq = some st.seqCounter →
      event_is_set ((process_message (send_command_register st o).1 f).1) st.seqCounter = true ∧
      (send_command_finish ((process_message (send_command_register st o).1 f).1) o
          st.seqCounter true).2 = .completed (some f) ∧
      plookup ((send_command_finish ((process_message (send_command_register st o).1 f).1) o
          st.seqCounter true).1).pending st.seqCounter = none) := by
  have hreg : (send_command_register st o).1 =
      {st with seqCounter := st.seqCounter + 1,
               pending := pset st.pending st.seqCounter ⟨o, .event false none⟩} := by
    simp [send_command_register, hrun]
  have hentry : plookup ((send_command_register st o).1).pending st.seqCounter =
      some ⟨o, .event false none⟩ := by
    rw [hreg]
    exact plookup_pset_self st.pending st.seqCounter _
  refine ⟨rfl, by simp [send_command_register, hrun], fun hno => ⟨?_, ?_, ?_⟩,
    fun f hc hs => ⟨?_, ?_, ?_⟩⟩
  · have hpres := process_all_pending_other (send_command_register st o).1 fs st.seqCounter hno
    unfold event_is_set
    rw [hpres, hentry]
  · simp [send_command_finish]
  · rw [send_command_finish_state]
    exact plookup_perase_self _ _
  · have hdel := process_message_delivers_event (send_command_register st o).1 f st.seqCounter
      o false none hc hs hentry
    unfold event_is_set
    rw [hdel]
    have : plookup (pset ((send_command_register st o).1).pending st.seqCounter
        ⟨o, .event true (some f)⟩) st.seqCounter = some ⟨o, .event true (some f)⟩ :=
      plookup_pset_self _ _ _
    simp only []
    rw [this]
  · have hdel := process_message_delivers_event (send_command_register st o).1 f st.seqCounter
      o false none hc hs hentry
    rw [hdel]
    have hlk : plookup (pset ((send_command_register st o).1).pending st.seqCounter
        ⟨o, .event true (some f)⟩) st.seqCounter = some ⟨o, .event true (some f)⟩ :=
      plookup_pset_self _ _ _
    simp [send_command_finish, hlk, entry_response]
  · rw [send_command_finish_state]
    exact plookup_perase_self _ _

theorem C6_blocking_timeout_semantics_witness :
    event_is_set (process_all (send_command_register ⟨true, true, true, 0, [], true⟩ 49).1
        [⟨some 0, some 99, "ev"⟩]) 0 = false ∧
    (send_command_finish (process_all (send_command_register ⟨true, true, true, 0, [], true⟩ 49).1
        [⟨some 0, some 99, "ev"⟩]) 49 0 false).2 = BlockingResult.timedOut 49 0 :=
  have h := (C6_blocking_timeout_semantics ⟨true, true, true, 0, [], true⟩ 49
    [⟨some 0, some 99, "ev"⟩] rfl).2.2.1 (by decide)
  ⟨h.1, h.2.1⟩

/-- C7: the constructor waits on the ready event with a fixed bound of 20
seconds; if the session is ready within the bound construction succeeds,
otherwise construction fails with the connect-timeout error — and this is
the only failure that can abort startup, because every exception inside a
connection attempt of the background loop is caught and turned into a
retry after 5 seconds, never re-raised towards the constructing caller. -/
theorem C7_startup_bound :
    init_ready_timeout = 20 ∧
    init_wait_result true = .ready ∧
    init_wait_result false = .connectTimeoutError ∧
    (∀ (a : Except String Unit) (m : String),
      connect_and_run_iter a ≠ .raisedToConstructor m) ∧
    (∀ (m : String), connect_and_run_iter (.error m) = .logAndRetryAfter 5) := by
  refine ⟨rfl, rfl, rfl, ?_, fun m => rfl⟩
  intro a m h
  cases a <;> simp [connect_and_run_iter] at h

/-- C8: the heartbeat fires every 3000 ms: while the session is ready it
consumes the next sequence id and schedules a fire-and-forget write of the
keepalive envelope, it never touches the pending table, on a write failure
it marks the session not ready, and it never starts a reconnect — it is
the listener (read) path alone that starts reconnection when it observes
the closed socket with both reconnect flags set. -/
theorem C8_heartbeat_behavior (st : ClientState) (wf : Bool) :
    heartbeat_interval_ms = 3000 ∧
    (st.isRunning = false → send_heartbeat st wf = (st, [])) ∧
    (st.isRunning = true → wf = false →
      send_heartbeat st wf = ({st with seqCounter := st.seqCounter + 1},
        [Effect.scheduledWrite ⟨11, 0, st.seqCounter, OPCODE_HEARTBEAT⟩])) ∧
    (st.isRunning = true → wf = true →
      (send_heartbeat st wf).1.isRunning = false ∧
      (send_heartbeat st wf).2 = [Effect.markedNotReady]) ∧
    Effect.startedReconnect ∉ (send_heartbeat st wf).2 ∧
    (send_heartbeat st wf).1.pending = st.pending ∧
    (∀ s2 : ClientState, s2.shouldReconnect = true → s2.autoReconnect = true →
      listener_on_failure s2 .webSocketClosedError = [Effect.startedReconnect]) := by
  refine ⟨rfl, ?_, ?_, ?_, ?_, ?_, fun s2 h1 h2 => by simp [listener_on_failure, h1, h2]⟩
  · intro h
    simp [send_heartbeat, h]
  · intro h hw
    simp [send_heartbeat, h, hw]
  · intro h hw
    simp [send_heartbeat, h, hw]
  · by_cases h : st.isRunning <;> by_cases hw : wf <;> simp [send_heartbeat, h, hw]
  · by_cases h : st.isRunning <;> by_cases hw : wf <;> simp [send_heartbeat, h, hw]

theorem C8_heartbeat_behavior_witness :
    (send_heartbeat ⟨true, true, true, 7, [], true⟩ true).1.isRunning = false ∧
    (send_heartbeat ⟨true, true, true, 7, [], true⟩ true).2 = [Effect.markedNotReady] :=
  (C8_heartbeat_behavior ⟨true, true, true, 7, [], true⟩ true).2.2.2.1 rfl rfl

/-- C9 counterexample: the claim states that every media-resolution
operation — including the file fetch via opcode 88 — validates the HTTP
response's content type before treating the bytes as the requested media
kind, returning no media when validation fails.  The code's get_file never
consults the content type: at a concrete response carrying no content type
at all (so no validation can succeed) it still returns the bytes, refuting
the claim. -/
theorem C9_counterexample : ¬ file_fetch_validates_content_type := by
  intro h
  have hc := h ⟨some "http://files.example/f"⟩ ⟨false, none, "BYTES", none⟩ rfl rfl
  have he : get_file_fetch ⟨some "http://files.example/f"⟩ ⟨false, none, "BYTES", none⟩ =
      .ok (some ("BYTES", "downloaded_file")) := rfl
  rw [he] at hc
  simp at hc

/-- C9 (amended): the video fetch (opcode 83) performs the secondary HTTP
fetch and validates the response content type — a content type not
containing "video" yields no media, and a missing URL yields no media.
The file fetch (opcode 88) likewise yields no media when no URL is
present, but performs no content-type validation: whenever the URL is
present and the HTTP status is good it returns the body bytes together
with the X-File-Name header (or the default name), whatever the content
type is. -/
theorem C9_amended_media_validation (vinfo : VideoDescriptor) (finfo : FileDescriptor)
    (r : HttpResponse) :
    (py_or_str vinfo.mp4_1080 vinfo.mp4_720 = none → get_video_fetch vinfo r = .ok none) ∧
    (∀ u ct, py_or_str vinfo.mp4_1080 vinfo.mp4_720 = some u → r.statusError = false →
      r.contentType = some ct →
      get_video_fetch vinfo r =
        (if chars_contain "video".toList ct.toList then .ok (some r.body)
         else .ok none)) ∧
    (str_truthy finfo.url = none → get_file_fetch finfo r = .ok none) ∧
    (∀ u, str_truthy finfo.url = some u → r.statusError = false →
      get_file_fetch finfo r = .ok (some (r.body,
        match str_truthy r.fileNameHeader with
        | some n => n
        | none => "downloaded_file"))) := by
  refine ⟨?_, ?_, ?_, ?_⟩
  · intro hu
    simp [get_video_fetch, hu]
  · intro u ct hu hs hct
    simp only [get_video_fetch, hu, hs, hct, if_neg, Bool.false_eq_true, not_false_iff]
  · intro hu
    simp [get_file_fetch, hu]
  · intro u hu hs
    simp only [get_file_fetch, hu, hs, Bool.false_eq_true, if_neg, not_false_iff]
    cases str_truthy r.fileNameHeader <;> rfl

theorem C9_amended_media_validation_witness :
    get_file_fetch ⟨some "http://files.example/f"⟩
        ⟨false, some "text/html", "BYTES", some "doc.bin"⟩ =
      .ok (some ("BYTES", "doc.bin")) :=
  (C9_amended_media_validation ⟨none, none⟩ ⟨some "http://files.example/f"⟩
    ⟨false, some "text/html", "BYTES", some "doc.bin"⟩).2.2.2 "http://files.example/f" rfl rfl

/-- C10: a blocking or deferred send while the session is not running
raises ConnectionError immediately: the client state is unchanged, so no
sequence number is consumed, no entry is added to the pending-request
table, and nothing is written to the socket (the register result carries
no written envelope). -/
theorem C10_send_not_connected (st : ClientState) (o : Nat)
    (h : st.isRunning = false) :
    send_command_register st o = (st, .notConnectedError) ∧
    send_command_async_register st o = (st, .notConnectedError) ∧
    client_step st (.opSendBlocking o) = ⟨st, none, none⟩ ∧
    client_step st (.opSendAsync o) = ⟨st, none, none⟩ := by
  refine ⟨?_, ?_, ?_, ?_⟩ <;>
    simp [send_command_register, send_command_async_register, client_step, h]

theorem C10_send_not_connected_witness :
    send_command_register ⟨false, true, true, 5, [], true⟩ 64 =
      (⟨false, true, true, 5, [], true⟩, .notConnectedError) ∧
    send_command_async_register ⟨false, true, true, 5, [], true⟩ 64 =
      (⟨false, true, true, 5, [], true⟩, .notConnectedError) ∧
    client_step ⟨false, true, true, 5, [], true⟩ (.opSendBlocking 64) =
      ⟨⟨false, true, true, 5, [], true⟩, none, none⟩ ∧
    client_step ⟨false, true, true, 5, [], true⟩ (.opSendAsync 64) =
      ⟨⟨false, true, true, 5, [], true⟩, none, none⟩ :=
  C10_send_not_connected ⟨false, true, true, 5, [], true⟩ 64 rfl
